import Mathlib

/-!
Verification of the Hermes real-time progress / event-distribution pipeline.

The definitions in this file are shallow embeddings of the Python sources of
the `hermes-api` package:

* `app/tasks/download_tasks.py`  — download executor and its `progress_hook`
* `app/services/redis_progress.py` — progress store (cache, pub/sub, tokens)
* `app/services/event_service.py`  — SSE event stream service
* `app/core/security.py`           — token scope matching
* `app/models/sse_token.py`        — token request validation
* `app/api/v1/endpoints/events.py` — token issuance and stream endpoints

Python strings are modelled by Lean `String` (with helper functions mirroring
the Python string primitives used by the code), Python floats by `ℚ`
(exact arithmetic), Python ints by `Int`, `None`-able values by `Option`,
raised exceptions by `Except`.
-/

set_option autoImplicit false

namespace Hermes

/-! ## String helpers mirroring the Python primitives used by the sources -/

/-- Predicate `listLeads p s` is true iff the char list `p` is an initial segment of `s`.
Used to model Python `str.startswith` (and, on reversed lists, `str.endswith`). -/
def listLeads : List Char → List Char → Bool
  | [], _ => true
  | _ :: _, [] => false
  | a :: as, b :: bs => a == b && listLeads as bs

/-- Python `s.startswith(p)`. -/
def pyStartsWith (s p : String) : Bool :=
  listLeads p.data s.data

/-- Python `s.endswith(p)`. -/
def pyEndsWith (s p : String) : Bool :=
  listLeads p.data.reverse s.data.reverse

/-- Python `s[:-n]` for `n ≥ 0`: all characters of `s` but the last `n`. -/
def pyDropLast (s : String) (n : Nat) : String :=
  ⟨s.data.take (s.data.length - n)⟩

/-- The characters after the first occurrence of `c` (empty if `c` is absent).
Models Python `s.split(c, 1)[1]` at the points where the sources use it
(always guarded by a `startswith` check that guarantees `c` occurs). -/
def afterFirst (c : Char) : List Char → List Char
  | [] => []
  | a :: as => if a == c then as else afterFirst c as

/-- Python `s.split(":", 1)[1]` as used on scope strings. -/
def scopeSuffix (s : String) : String :=
  ⟨afterFirst ':' s.data⟩

/-- Python `abs` on floats (modelled over `ℚ`). -/
def pyAbs (x : ℚ) : ℚ :=
  if x < 0 then -x else x

/-! Basic lemmas about the string helpers. -/

theorem listLeads_iff (p s : List Char) :
    listLeads p s = true ↔ ∃ q, s = p ++ q := by
  induction p generalizing s with
  | nil => simp [listLeads]
  | cons a as ih =>
    cases s with
    | nil => simp [listLeads]
    | cons b bs =>
      simp only [listLeads, Bool.and_eq_true, beq_iff_eq, ih, List.cons_append,
        List.cons.injEq]
      constructor
      · rintro ⟨rfl, q, rfl⟩
        exact ⟨q, rfl, rfl⟩
      · rintro ⟨q, rfl, rfl⟩
        exact ⟨rfl, q, rfl⟩

theorem string_eq_iff_data {s t : String} : s = t ↔ s.data = t.data := by
  cases s; cases t
  exact ⟨fun h => by cases h; rfl, fun h => by cases h; rfl⟩

theorem string_data_append (s t : String) : (s ++ t).data = s.data ++ t.data := by
  cases s; cases t; rfl

theorem pyStartsWith_iff (s p : String) :
    pyStartsWith s p = true ↔ ∃ q : String, s = p ++ q := by
  rw [pyStartsWith, listLeads_iff]
  constructor
  · rintro ⟨q, hq⟩
    exact ⟨⟨q⟩, by rw [string_eq_iff_data, string_data_append]; exact hq⟩
  · rintro ⟨q, rfl⟩
    exact ⟨q.data, string_data_append p q⟩

theorem pyEndsWith_iff (s p : String) :
    pyEndsWith s p = true ↔ ∃ q : String, s = q ++ p := by
  rw [pyEndsWith, listLeads_iff]
  constructor
  · rintro ⟨q, hq⟩
    refine ⟨⟨q.reverse⟩, ?_⟩
    rw [string_eq_iff_data, string_data_append]
    have := congrArg List.reverse hq
    simpa using this
  · rintro ⟨q, rfl⟩
    exact ⟨q.data.reverse, by rw [string_data_append]; simp⟩

theorem pyDropLast_append (p s : String) (n : Nat) (h : s.data.length = n) :
    pyDropLast (p ++ s) n = p := by
  rw [string_eq_iff_data, pyDropLast, string_data_append]
  simp [h, List.take_left]

/-! ## Token scope matching

Embeds `_scope_matches` from `app/core/security.py` (the method
`SSETokenData.matches_scope` in `app/models/sse_token.py` is character-for-
character the same logic). -/

/-- Embeds `_scope_matches(token_scope, required_scope)` from `app/core/security.py`:
exact match, or wildcard match when the required scope ends in `:*`. -/
def scope_matches (token_scope required_scope : String) : Bool :=
  if token_scope == required_scope then
    true
  else if pyEndsWith required_scope ":*" then
    -- scope_prefix = required_scope[:-2]; token_scope.startswith(scope_prefix + ":")
    pyStartsWith token_scope (pyDropLast required_scope 2 ++ ":")
  else
    false

theorem string_append_assoc (a b c : String) : a ++ b ++ c = a ++ (b ++ c) := by
  rw [string_eq_iff_data, string_data_append, string_data_append,
    string_data_append, string_data_append, List.append_assoc]

theorem string_append_right_cancel {a b c : String} (h : a ++ c = b ++ c) :
    a = b := by
  rw [string_eq_iff_data, string_data_append, string_data_append] at h
  rw [string_eq_iff_data]
  exact List.append_cancel_right h

/-- C7: the token scope-matching function returns `true` iff the token scope
equals the required scope exactly, or the required scope ends in `:*` and the
token scope starts with the required scope's pre-colon prefix followed by `:`;
in particular `matches("download:abc","download:abc") = true`,
`matches("download:abc","download:*") = true`,
`matches("download:abc","queue") = false`, and
`matches("queue","queue") = true`. -/
theorem scope_matches_spec :
    (∀ token_scope required_scope : String,
      scope_matches token_scope required_scope = true ↔
        (token_scope = required_scope ∨
          ∃ p rest : String,
            required_scope = p ++ ":*" ∧ token_scope = p ++ ":" ++ rest)) ∧
    scope_matches "download:abc" "download:abc" = true ∧
    scope_matches "download:abc" "download:*" = true ∧
    scope_matches "download:abc" "queue" = false ∧
    scope_matches "queue" "queue" = true := by
  refine ⟨?_, by decide, by decide, by decide, by decide⟩
  intro t r
  unfold scope_matches
  by_cases heq : t = r
  · subst heq
    simp
  · rw [if_neg (by simpa using heq)]
    by_cases hend : pyEndsWith r ":*" = true
    · rw [if_pos hend]
      obtain ⟨q, hq⟩ := (pyEndsWith_iff r ":*").mp hend
      have hdrop : pyDropLast r 2 = q := by
        rw [hq]; exact pyDropLast_append q ":*" 2 rfl
      rw [hdrop, pyStartsWith_iff]
      constructor
      · rintro ⟨rest, hrest⟩
        exact Or.inr ⟨q, rest, hq, by rw [hrest, string_append_assoc]⟩
      · rintro (h | ⟨p, rest, hr, ht⟩)
        · exact absurd h heq
        · have hpq : p = q := string_append_right_cancel (hr.symm.trans hq)
          subst hpq
          exact ⟨rest, by rw [ht, string_append_assoc]⟩
    · rw [if_neg hend]
      simp only [Bool.false_eq_true, false_iff]
      rintro (h | ⟨p, rest, hr, -⟩)
      · exact heq h
      · exact hend ((pyEndsWith_iff r ":*").mpr ⟨p, hr⟩)

/-! ## Download executor progress hook

Embeds `progress_hook` from `app/tasks/download_tasks.py` (lines 334-454):
percentage normalization and the three-tier (cache / pub-sub push / durable
database) throttled write policy.  Wall-clock times (`time.time()`) and
percentages (Python floats) are modelled as exact rationals. -/

/-- Constant `MIN_BYTES_FOR_COMPLETION = 1_000_000` (download_tasks.py line 358). -/
def MIN_BYTES_FOR_COMPLETION : Int := 1000000

/-- The percentage normalization of `progress_hook` (download_tasks.py lines
350-369).  `percentage` starts at `0.0` and is only recomputed when
`total_int` is truthy and positive and `downloaded_int` is not `None`. -/
def computePercentage (downloaded_int total_int : Option Int) : ℚ :=
  match total_int, downloaded_int with
  | some t, some dl =>
    -- `if total_int and total_int > 0 and downloaded_int is not None:`
    -- (`total_int and total_int > 0` is truthy exactly when `0 < t`)
    if 0 < t then
      let raw_percentage : ℚ := ((dl : ℚ) / (t : ℚ)) * 100
      if 100 ≤ raw_percentage ∧ dl < MIN_BYTES_FOR_COMPLETION then 5
      else if 100 < raw_percentage then 99
      else raw_percentage
    else 0
  | _, _ => 0

/-- The clamping rule exactly as the specification states it, for known
positive totals: raw = downloaded / total × 100; if raw ≥ 100 and
downloaded < 1,000,000 then 5; else if raw > 100 then 99; else raw. -/
def specClampedPercentage (downloaded total : Int) : ℚ :=
  let raw : ℚ := ((downloaded : ℚ) / (total : ℚ)) * 100
  if 100 ≤ raw ∧ downloaded < 1000000 then 5
  else if 100 < raw then 99
  else raw

/-- The four mutable throttling cells captured by the `progress_hook` closure
(download_tasks.py lines 329-332), all initialized to `0.0`. -/
structure HookState where
  last_db_update_time : ℚ
  last_db_percentage : ℚ
  last_sse_update_time : ℚ
  last_sse_percentage : ℚ
  deriving DecidableEq

/-- Initial throttling state of a job (all cells `0.0`). -/
def initHookState : HookState := ⟨0, 0, 0, 0⟩

/-- One `downloading`-status invocation of `progress_hook`: the wall-clock
time (`time.time()`) and the byte counts reported by the engine. -/
structure ProgressCallback where
  time : ℚ
  downloaded_bytes : Option Int
  total_bytes : Option Int
  deriving DecidableEq

/-- The observable effect of one `progress_hook` invocation: which of the
three tiers were written, at which time, with which reported percentage. -/
structure HookWrites where
  time : ℚ
  percentage : ℚ
  cacheWrite : Bool
  sseWrite : Bool
  dbWrite : Bool
  deriving DecidableEq

/-- Layer-2 (push / pub-sub) trigger (download_tasks.py lines 402-409):
`abs(percentage - last_sse_percentage) >= 1.0 or
 current_time - last_sse_update_time >= 0.5 or percentage >= 99.9`. -/
def sseTrigger (lastTime lastPct t pct : ℚ) : Prop :=
  pyAbs (pct - lastPct) ≥ 1 ∨ t - lastTime ≥ 1/2 ∨ pct ≥ 999/10

/-- Layer-3 (durable / database) trigger (download_tasks.py lines 430-437):
`abs(percentage - last_db_percentage) >= 5.0 or
 current_time - last_db_update_time >= 2.0 or percentage >= 99.9`. -/
def dbTrigger (lastTime lastPct t pct : ℚ) : Prop :=
  pyAbs (pct - lastPct) ≥ 5 ∨ t - lastTime ≥ 2 ∨ pct ≥ 999/10

instance (a b c d : ℚ) : Decidable (sseTrigger a b c d) := by
  unfold sseTrigger; infer_instance

instance (a b c d : ℚ) : Decidable (dbTrigger a b c d) := by
  unfold dbTrigger; infer_instance

/-- One invocation of `progress_hook` on a `downloading` callback
(download_tasks.py lines 334-454): the cache tier is written
unconditionally; the push and durable tiers are written, and their
last-write trackers updated, exactly when their triggers fire. -/
def hookStep (st : HookState) (cb : ProgressCallback) : HookWrites × HookState :=
  let pct := computePercentage cb.downloaded_bytes cb.total_bytes
  let sse : Bool :=
    if sseTrigger st.last_sse_update_time st.last_sse_percentage cb.time pct
    then true else false
  let db : Bool :=
    if dbTrigger st.last_db_update_time st.last_db_percentage cb.time pct
    then true else false
  (⟨cb.time, pct, true, sse, db⟩,
   { last_db_update_time := if db then cb.time else st.last_db_update_time
     last_db_percentage := if db then pct else st.last_db_percentage
     last_sse_update_time := if sse then cb.time else st.last_sse_update_time
     last_sse_percentage := if sse then pct else st.last_sse_percentage })

/-- A whole sequence of progress callbacks for one job, threaded through the
closure state. -/
def runHook (st : HookState) : List ProgressCallback → List HookWrites
  | [] => []
  | cb :: rest =>
    let step := hookStep st cb
    step.1 :: runHook step.2 rest

/-- The (time, percentage) of the most recent push-tier write in `ws`,
starting from `init`.  This reads the *observable output trace* only; it is
the specification's notion of "since its last write". -/
def sseFold (init : ℚ × ℚ) (ws : List HookWrites) : ℚ × ℚ :=
  ws.foldl (fun acc w => if w.sseWrite then (w.time, w.percentage) else acc) init

/-- The (time, percentage) of the most recent durable-tier write in `ws`,
starting from `init`. -/
def dbFold (init : ℚ × ℚ) (ws : List HookWrites) : ℚ × ℚ :=
  ws.foldl (fun acc w => if w.dbWrite then (w.time, w.percentage) else acc) init


theorem runHook_length (st : HookState) (trace : List ProgressCallback) :
    (runHook st trace).length = trace.length := by
  induction trace generalizing st with
  | nil => rfl
  | cons cb rest ih => simp [runHook, ih]

theorem hookStep_cacheWrite (st : HookState) (cb : ProgressCallback) :
    (hookStep st cb).1.cacheWrite = true := rfl

theorem hookStep_sse_sound (st : HookState) (cb : ProgressCallback) :
    (hookStep st cb).1.sseWrite = true →
    sseTrigger st.last_sse_update_time st.last_sse_percentage
      (hookStep st cb).1.time (hookStep st cb).1.percentage := by
  simp only [hookStep]
  by_cases h : sseTrigger st.last_sse_update_time st.last_sse_percentage cb.time
      (computePercentage cb.downloaded_bytes cb.total_bytes) <;>
    simp [h]

theorem hookStep_db_sound (st : HookState) (cb : ProgressCallback) :
    (hookStep st cb).1.dbWrite = true →
    dbTrigger st.last_db_update_time st.last_db_percentage
      (hookStep st cb).1.time (hookStep st cb).1.percentage := by
  simp only [hookStep]
  by_cases h : dbTrigger st.last_db_update_time st.last_db_percentage cb.time
      (computePercentage cb.downloaded_bytes cb.total_bytes) <;>
    simp [h]

theorem hookStep_sse_state (st : HookState) (cb : ProgressCallback) :
    ((hookStep st cb).2.last_sse_update_time,
      (hookStep st cb).2.last_sse_percentage) =
      (if (hookStep st cb).1.sseWrite then
        ((hookStep st cb).1.time, (hookStep st cb).1.percentage)
      else (st.last_sse_update_time, st.last_sse_percentage)) := by
  simp only [hookStep]
  by_cases h : sseTrigger st.last_sse_update_time st.last_sse_percentage cb.time
      (computePercentage cb.downloaded_bytes cb.total_bytes) <;>
    simp [h]

theorem hookStep_db_state (st : HookState) (cb : ProgressCallback) :
    ((hookStep st cb).2.last_db_update_time,
      (hookStep st cb).2.last_db_percentage) =
      (if (hookStep st cb).1.dbWrite then
        ((hookStep st cb).1.time, (hookStep st cb).1.percentage)
      else (st.last_db_update_time, st.last_db_percentage)) := by
  simp only [hookStep]
  by_cases h : dbTrigger st.last_db_update_time st.last_db_percentage cb.time
      (computePercentage cb.downloaded_bytes cb.total_bytes) <;>
    simp [h]

/-- Generalized three-tier soundness: relative to an arbitrary closure state,
every write that `progress_hook` performs satisfies its tier trigger computed
from the writes that precede it in the observable output trace. -/
theorem runHook_write_sound :
    ∀ (trace : List ProgressCallback) (st : HookState)
      (pre suf : List HookWrites) (w : HookWrites),
      runHook st trace = pre ++ w :: suf →
      w.cacheWrite = true ∧
      (w.sseWrite = true →
        sseTrigger
          (sseFold (st.last_sse_update_time, st.last_sse_percentage) pre).1
          (sseFold (st.last_sse_update_time, st.last_sse_percentage) pre).2
          w.time w.percentage) ∧
      (w.dbWrite = true →
        dbTrigger
          (dbFold (st.last_db_update_time, st.last_db_percentage) pre).1
          (dbFold (st.last_db_update_time, st.last_db_percentage) pre).2
          w.time w.percentage) := by
  intro trace
  induction trace with
  | nil =>
    intro st pre suf w h
    exact absurd h (by simp [runHook])
  | cons cb rest ih =>
    intro st pre suf w h
    rw [show runHook st (cb :: rest) =
        (hookStep st cb).1 :: runHook (hookStep st cb).2 rest from rfl] at h
    cases pre with
    | nil =>
      simp only [List.nil_append, List.cons.injEq] at h
      obtain ⟨hw, -⟩ := h
      subst hw
      exact ⟨hookStep_cacheWrite st cb,
        fun hs => by simpa [sseFold] using hookStep_sse_sound st cb hs,
        fun hd => by simpa [dbFold] using hookStep_db_sound st cb hd⟩
    | cons p0 pre2 =>
      simp only [List.cons_append, List.cons.injEq] at h
      obtain ⟨hp0, hrest⟩ := h
      have hind := ih (hookStep st cb).2 pre2 suf w hrest
      have hsse :
          sseFold ((hookStep st cb).2.last_sse_update_time,
            (hookStep st cb).2.last_sse_percentage) pre2 =
          sseFold (st.last_sse_update_time, st.last_sse_percentage) (p0 :: pre2) := by
        rw [hookStep_sse_state st cb, hp0]
        simp [sseFold, List.foldl_cons]
      have hdb :
          dbFold ((hookStep st cb).2.last_db_update_time,
            (hookStep st cb).2.last_db_percentage) pre2 =
          dbFold (st.last_db_update_time, st.last_db_percentage) (p0 :: pre2) := by
        rw [hookStep_db_state st cb, hp0]
        simp [dbFold, List.foldl_cons]
      rw [hsse, hdb] at hind
      exact hind

/-- C1: for every progress callback where the total byte count is known and
positive, the reported percentage follows the spec's clamping rule: 5 when
the raw percentage is ≥ 100 with fewer than 1,000,000 bytes downloaded, 99
when the raw percentage exceeds 100 otherwise, and the raw percentage
(downloaded / total × 100) in all other cases. -/
theorem computePercentage_spec (downloaded total : Int) (h : 0 < total) :
    computePercentage (some downloaded) (some total) =
      specClampedPercentage downloaded total := by
  simp [computePercentage, specClampedPercentage, MIN_BYTES_FOR_COMPLETION, h]

theorem computePercentage_spec_witness :
    (0 : Int) < 100000 ∧
      computePercentage (some 500) (some 100000) =
        specClampedPercentage 500 100000 :=
  ⟨by decide, computePercentage_spec 500 100000 (by decide)⟩

/-- C2: for every sequence of progress callbacks of one job, run from the
initial closure state: every callback produces exactly one output record and
the cache tier is written on it; a push (pub/sub) write happens only when the
absolute percentage delta since the push tier's last write is ≥ 1.0, or at
least 0.5 seconds elapsed since that write, or the percentage is ≥ 99.9; a
durable (database) write happens only when the delta since the durable tier's
last write is ≥ 5.0, or at least 2.0 seconds elapsed, or the percentage is
≥ 99.9 — no tier write occurs outside its trigger condition ("last write"
read off the observable output trace, initialized to time 0, percentage 0). -/
theorem progress_hook_three_tier_throttle
    (trace : List ProgressCallback) (pre suf : List HookWrites) (w : HookWrites)
    (h : runHook initHookState trace = pre ++ w :: suf) :
    (runHook initHookState trace).length = trace.length ∧
    w.cacheWrite = true ∧
    (w.sseWrite = true →
      pyAbs (w.percentage - (sseFold (0, 0) pre).2) ≥ 1 ∨
      w.time - (sseFold (0, 0) pre).1 ≥ 1/2 ∨
      w.percentage ≥ 999/10) ∧
    (w.dbWrite = true →
      pyAbs (w.percentage - (dbFold (0, 0) pre).2) ≥ 5 ∨
      w.time - (dbFold (0, 0) pre).1 ≥ 2 ∨
      w.percentage ≥ 999/10) := by
  have hs := runHook_write_sound trace initHookState pre suf w h
  have h0 : (initHookState.last_sse_update_time,
      initHookState.last_sse_percentage) = ((0 : ℚ), (0 : ℚ)) := rfl
  have h1 : (initHookState.last_db_update_time,
      initHookState.last_db_percentage) = ((0 : ℚ), (0 : ℚ)) := rfl
  rw [h0, h1] at hs
  exact ⟨runHook_length initHookState trace, hs.1,
    fun hw => hs.2.1 hw, fun hw => hs.2.2 hw⟩

theorem progress_hook_three_tier_throttle_witness :
    (runHook initHookState [⟨1700000000, some 500, some 100000⟩] =
      [] ++ (⟨1700000000, 1/2, true, true, true⟩ : HookWrites) :: []) ∧
    ((runHook initHookState [⟨1700000000, some 500, some 100000⟩]).length =
      [(⟨1700000000, some 500, some 100000⟩ : ProgressCallback)].length ∧
    (⟨1700000000, 1/2, true, true, true⟩ : HookWrites).cacheWrite = true ∧
    ((⟨1700000000, 1/2, true, true, true⟩ : HookWrites).sseWrite = true →
      pyAbs ((⟨1700000000, 1/2, true, true, true⟩ : HookWrites).percentage -
        (sseFold (0, 0) []).2) ≥ 1 ∨
      (⟨1700000000, 1/2, true, true, true⟩ : HookWrites).time -
        (sseFold (0, 0) []).1 ≥ 1/2 ∨
      (⟨1700000000, 1/2, true, true, true⟩ : HookWrites).percentage ≥ 999/10) ∧
    ((⟨1700000000, 1/2, true, true, true⟩ : HookWrites).dbWrite = true →
      pyAbs ((⟨1700000000, 1/2, true, true, true⟩ : HookWrites).percentage -
        (dbFold (0, 0) []).2) ≥ 5 ∨
      (⟨1700000000, 1/2, true, true, true⟩ : HookWrites).time -
        (dbFold (0, 0) []).1 ≥ 2 ∨
      (⟨1700000000, 1/2, true, true, true⟩ : HookWrites).percentage ≥ 999/10)) := by
  have hpct : computePercentage (some 500) (some 100000) = 1/2 := by
    norm_num [computePercentage, MIN_BYTES_FOR_COMPLETION]
  have hEq : runHook initHookState [⟨1700000000, some 500, some 100000⟩] =
      [] ++ (⟨1700000000, 1/2, true, true, true⟩ : HookWrites) :: [] := by
    simp [runHook, hookStep, hpct, initHookState]
    constructor
    · right; left; norm_num [sseTrigger]
    · right; left; norm_num [dbTrigger]
  exact ⟨hEq, progress_hook_three_tier_throttle _ [] [] _ hEq⟩

/-- C4 counterexample: on the very first progress callback of a job reporting
downloaded=500, total=100000 (raw percentage 0.5) at wall-clock time
1700000000, the push tier AND the durable tier are written (third and fourth
`true` fields), refuting the claim that neither is written: the throttle
cells are initialized to `0.0`, so the elapsed-time triggers
(`current_time - 0.0 ≥ 0.5` resp. `≥ 2.0`) fire on the first callback even
though the percentage delta (0.5) is below both percentage thresholds. -/
theorem first_callback_counterexample :
    runHook initHookState [⟨1700000000, some 500, some 100000⟩] =
      [⟨1700000000, 1/2, true, true, true⟩] := by
  have hpct : computePercentage (some 500) (some 100000) = 1/2 := by
    norm_num [computePercentage, MIN_BYTES_FOR_COMPLETION]
  simp [runHook, hookStep, hpct, initHookState]
  constructor
  · right; left; norm_num [sseTrigger]
  · right; left; norm_num [dbTrigger]

/-- C4 amended: on the first progress callback of a job reporting
downloaded=500 and total=100000 (raw percentage 0.5), the cache tier is
written, and — whenever the wall-clock timestamp is at least 2 seconds (in
practice always, since `time.time()` is an epoch timestamp) — the push and
durable tiers are written as well, because the last-write times are
initialized to 0.0 and the elapsed-time triggers fire; the percentage delta
alone (0.5, below the 1.0 push and 5.0 durable thresholds) would not have
triggered them. -/
theorem first_callback_writes_all_tiers (t : ℚ) (h : 2 ≤ t) :
    runHook initHookState [⟨t, some 500, some 100000⟩] =
      [⟨t, 1/2, true, true, true⟩] ∧
    pyAbs (1/2 - 0) < 1 ∧ pyAbs (1/2 - 0) < 5 := by
  have hpct : computePercentage (some 500) (some 100000) = 1/2 := by
    norm_num [computePercentage, MIN_BYTES_FOR_COMPLETION]
  refine ⟨?_, by norm_num [pyAbs], by norm_num [pyAbs]⟩
  simp [runHook, hookStep, hpct, initHookState]
  constructor
  · right; left
    show t - 0 ≥ 1/2
    linarith
  · right; left
    show t - 0 ≥ 2
    linarith

theorem first_callback_writes_all_tiers_witness :
    (2 : ℚ) ≤ 1700000000 ∧
      (runHook initHookState [⟨1700000000, some 500, some 100000⟩] =
        [⟨1700000000, 1/2, true, true, true⟩] ∧
      pyAbs (1/2 - 0) < 1 ∧ pyAbs (1/2 - 0) < 5) :=
  ⟨by norm_num, first_callback_writes_all_tiers 1700000000 (by norm_num)⟩

/-! ## Ephemeral token store: bulk revocation

Embeds `revoke_user_sse_tokens` from `app/services/redis_progress.py`
(lines 418-474), success path: the store is the list of `sse:token:*` keys
with their (deserialized) token data, in scan order. -/

/-- The stored token fields that revocation reads (`user_id`, `scope`). -/
structure TokenData where
  user_id : String
  scope : String
  deriving DecidableEq

/-- Embeds `revoke_user_sse_tokens(user_id, scope_prefix)`: scan every stored
token; skip entries whose owner differs from `user_id`; skip entries whose
scope does not start with the scope prefix when one is given (Python
truthiness: `if scope_prefix and not ...startswith(...)`, so `None` or `""`
applies no scope filter); delete the rest, returning the surviving store and
the number of tokens revoked. -/
def revoke_user_sse_tokens (store : List (String × TokenData))
    (user_id : String) (scopePre : Option String) :
    List (String × TokenData) × Nat :=
  match store with
  | [] => ([], 0)
  | e :: rest =>
    let r := revoke_user_sse_tokens rest user_id scopePre
    if e.2.user_id ≠ user_id then (e :: r.1, r.2)
    else
      match scopePre with
      | some q =>
        if q ≠ "" ∧ pyStartsWith e.2.scope q = false then (e :: r.1, r.2)
        else (r.1, r.2 + 1)
      | none => (r.1, r.2 + 1)

/-- The token-revocation call made on every terminal path of
`_download_video_task` (download_tasks.py lines 546-557, 600-617 and
656-673): `revoke_user_sse_tokens(user_id="*",
scope_prefix=f"download:{download_id}")`. -/
def terminalTokenCleanup (store : List (String × TokenData))
    (download_id : String) : List (String × TokenData) × Nat :=
  revoke_user_sse_tokens store "*" (some ("download:" ++ download_id))

theorem pyStartsWith_empty (s : String) : pyStartsWith s "" = true := rfl

/-- C9: bulk revocation for principal P with scope prefix Q deletes exactly
the stored tokens owned by P whose scope starts with Q (counting them in the
returned total), and leaves every other token — P's tokens with other scopes
and all other principals' tokens — in the store unchanged. -/
theorem revoke_user_sse_tokens_spec (store : List (String × TokenData))
    (P Q : String) :
    (revoke_user_sse_tokens store P (some Q)).1 =
      store.filter (fun e => !(e.2.user_id == P && pyStartsWith e.2.scope Q)) ∧
    (revoke_user_sse_tokens store P (some Q)).2 =
      (store.filter (fun e => e.2.user_id == P && pyStartsWith e.2.scope Q)).length ∧
    ∀ e ∈ store, ¬(e.2.user_id = P ∧ pyStartsWith e.2.scope Q = true) →
      e ∈ (revoke_user_sse_tokens store P (some Q)).1 := by
  induction store with
  | nil => exact ⟨rfl, rfl, by simp⟩
  | cons e rest ih =>
    obtain ⟨ih1, ih2, ih3⟩ := ih
    by_cases hu : e.2.user_id = P
    · by_cases hs : pyStartsWith e.2.scope Q = true
      · -- owner and scope both match: deleted (whether or not Q is empty)
        have hstep : revoke_user_sse_tokens (e :: rest) P (some Q) =
            ((revoke_user_sse_tokens rest P (some Q)).1,
              (revoke_user_sse_tokens rest P (some Q)).2 + 1) := by
          simp [revoke_user_sse_tokens, hu, hs]
        refine ⟨?_, ?_, ?_⟩
        · rw [hstep]; simp [List.filter, hu, hs, ih1]
        · rw [hstep]; simp [List.filter, hu, hs, ih2]
        · intro x hx hnot
          rw [hstep]
          rcases List.mem_cons.mp hx with hxe | hxr
          · exact absurd ⟨by rw [hxe, hu], by rw [hxe]; exact hs⟩ hnot
          · exact ih3 x hxr hnot
      · -- owner matches, scope does not: kept; the Python skip requires Q truthy,
        -- but a non-matching scope forces Q ≠ "" (every scope starts with "")
        have hq : Q ≠ "" := by
          intro h
          exact hs (h ▸ pyStartsWith_empty e.2.scope)
        have hstep : revoke_user_sse_tokens (e :: rest) P (some Q) =
            (e :: (revoke_user_sse_tokens rest P (some Q)).1,
              (revoke_user_sse_tokens rest P (some Q)).2) := by
          simp [revoke_user_sse_tokens, hu, hq,
            Bool.not_eq_true (pyStartsWith e.2.scope Q) ▸ hs]
        refine ⟨?_, ?_, ?_⟩
        · rw [hstep]; simp [List.filter, hu, hs, ih1]
        · rw [hstep]; simp [List.filter, hu, hs, ih2]
        · intro x hx hnot
          rw [hstep]
          rcases List.mem_cons.mp hx with hxe | hxr
          · exact hxe ▸ List.mem_cons_self e _
          · exact List.mem_cons_of_mem e (ih3 x hxr hnot)
    · -- owner differs: kept
      have hstep : revoke_user_sse_tokens (e :: rest) P (some Q) =
          (e :: (revoke_user_sse_tokens rest P (some Q)).1,
            (revoke_user_sse_tokens rest P (some Q)).2) := by
        simp [revoke_user_sse_tokens, hu]
      have hbe : (e.2.user_id == P) = false := by simpa using hu
      refine ⟨?_, ?_, ?_⟩
      · rw [hstep]; simp [List.filter, hbe, ih1]
      · rw [hstep]; simp [List.filter, hbe, ih2]
      · intro x hx hnot
        rw [hstep]
        rcases List.mem_cons.mp hx with hxe | hxr
        · exact hxe ▸ List.mem_cons_self e _
        · exact List.mem_cons_of_mem e (ih3 x hxr hnot)

/-- C3 at the failing input: a stored token owned by principal "user:alice"
and scoped to the finished job "j1" survives the terminal-state cleanup
(revocation count 0), although its scope starts with "download:j1" — the
cleanup call passes the literal user id "*" (intending "all users", per the
comment in download_tasks.py line 549), but `revoke_user_sse_tokens`
compares the owner id by equality, so no real principal's token matches. -/
theorem terminal_cleanup_misses_other_principals :
    terminalTokenCleanup
      [("sse:token:t1", ⟨"user:alice", "download:j1"⟩)] "j1" =
      ([("sse:token:t1", ⟨"user:alice", "download:j1"⟩)], 0) ∧
    pyStartsWith "download:j1" ("download:" ++ "j1") = true := by
  constructor
  · rfl
  · decide

/-! ## Progress store failure handling

Exception behavior of each Progress Store operation in
`app/services/redis_progress.py`, modelled by the operation's reaction to
the outcome of its underlying store call (`Except.error` = the store call
raised).  An operation returning `Except.error` re-raises to its caller;
`Except.ok` means it returned normally. -/

namespace FailurePath

/-- Operation `set_progress_sync` (redis_progress.py 66-90): `except Exception` logs
and returns — a failure is swallowed. -/
def set_progress_sync (call : Except String Unit) : Except String Unit :=
  match call with
  | .ok _ => .ok ()
  | .error _ => .ok ()

/-- Operation `get_progress` (92-115): on failure logs and returns `None`. -/
def get_progress (call : Except String (Option String)) :
    Except String (Option String) :=
  match call with
  | .ok d => .ok d
  | .error _ => .ok none

/-- Operation `delete_progress` (117-133): on failure logs and returns. -/
def delete_progress (call : Except String Unit) : Except String Unit :=
  match call with
  | .ok _ => .ok ()
  | .error _ => .ok ()

/-- Operation `publish_event` (190-225): on failure logs and returns. -/
def publish_event (call : Except String Unit) : Except String Unit :=
  match call with
  | .ok _ => .ok ()
  | .error _ => .ok ()

/-- Operation `store_sse_token` (343-372): on failure logs and then `raise`s —
the exception propagates to the caller. -/
def store_sse_token (call : Except String Unit) : Except String Unit :=
  match call with
  | .ok _ => .ok ()
  | .error e => .error e

/-- Operation `get_sse_token` (374-397): on failure logs and returns `None`. -/
def get_sse_token (call : Except String (Option String)) :
    Except String (Option String) :=
  match call with
  | .ok d => .ok d
  | .error _ => .ok none

/-- Operation `delete_sse_token` (399-416): on failure logs and returns. -/
def delete_sse_token (call : Except String Unit) : Except String Unit :=
  match call with
  | .ok _ => .ok ()
  | .error _ => .ok ()

/-- Operation `revoke_user_sse_tokens` (418-474), exception view: on failure logs and
returns 0. -/
def revoke_user_sse_tokens (call : Except String Nat) : Except String Nat :=
  match call with
  | .ok n => .ok n
  | .error _ => .ok 0

end FailurePath

/-- C5 counterexample: `store_sse_token` does NOT catch a store failure and
return — it logs and re-raises, so the failure reaches its caller (the
token-issuance endpoint translates it into a 500 response; the test
`test_store_sse_token_raises_on_redis_error` asserts this re-raise).  This
refutes the claim that *every* Progress Store operation returns to its
caller without raising. -/
theorem store_sse_token_raises_counterexample :
    FailurePath.store_sse_token (Except.error "Redis connection failed") =
      Except.error "Redis connection failed" := rfl

/-- C5 amended: every Progress Store operation except token storage catches
a store failure internally, logs it, and returns a degraded value to its
caller without raising (unit for writes/deletes/publishes, `None` for reads,
0 for bulk revocation); `store_sse_token` alone logs the failure and then
re-raises it to its caller. -/
theorem store_ops_failure_behavior (e : String) :
    FailurePath.set_progress_sync (Except.error e) = Except.ok () ∧
    FailurePath.get_progress (Except.error e) = Except.ok none ∧
    FailurePath.delete_progress (Except.error e) = Except.ok () ∧
    FailurePath.publish_event (Except.error e) = Except.ok () ∧
    FailurePath.get_sse_token (Except.error e) = Except.ok none ∧
    FailurePath.delete_sse_token (Except.error e) = Except.ok () ∧
    FailurePath.revoke_user_sse_tokens (Except.error e) = Except.ok 0 ∧
    FailurePath.store_sse_token (Except.error e) = Except.error e :=
  ⟨rfl, rfl, rfl, rfl, rfl, rfl, rfl, rfl⟩

/-! ## Ephemeral token issuance

Embeds `POST /api/v1/events/token` (`create_sse_token`, events.py lines
249-395) composed with the pydantic validation of `CreateSSETokenRequest`
(sse_token.py lines 108-121: `ttl` bounded by `ge=60, le=3600`, checked
before the handler body runs). -/

theorem scopeSuffix_append (id : String) :
    scopeSuffix ("download:" ++ id) = id := by
  rw [string_eq_iff_data]
  show afterFirst ':' ("download:" ++ id).data = id.data
  rw [string_data_append]
  rfl

theorem pyStartsWith_download_append (id : String) :
    pyStartsWith ("download:" ++ id) "download:" = true :=
  (pyStartsWith_iff _ _).mpr ⟨id, rfl⟩

/-- Rejection reasons of token issuance: pydantic 422 for the TTL bounds,
HTTP 400 for scope grammar, HTTP 404 for a missing job, HTTP 500 when the
store write raises. -/
inductive IssueReject
  | ttlOutOfRange
  | invalidScopeFormat
  | downloadNotFound
  | storeFailed
  deriving DecidableEq

/-- Outcome of one issuance request: the response (token scope and ttl
echoed back on success), whether the job-existence read was performed, and
whether the token store was touched. -/
structure IssueOutcome where
  result : Except IssueReject (String × Int)
  jobChecked : Bool
  storeTouched : Bool

/-- Embeds the `create_sse_token` handler: validate the TTL bounds (pydantic, at the
boundary), validate the scope grammar, for download scopes look the job up
via the persistence collaborator `jobExists` and reject when absent, then
store the generated token (`storeOk` = the store write succeeded). -/
def create_sse_token (scope : String) (ttl : Int)
    (jobExists : String → Bool) (storeOk : Bool) : IssueOutcome :=
  if ttl < 60 ∨ 3600 < ttl then
    ⟨.error .ttlOutOfRange, false, false⟩
  else if ¬(scope = "queue" ∨ scope = "system" ∨
      (pyStartsWith scope "download:" = true ∧ 0 < (scopeSuffix scope).length)) then
    ⟨.error .invalidScopeFormat, false, false⟩
  else if pyStartsWith scope "download:" = true then
    if jobExists (scopeSuffix scope) then
      if storeOk then ⟨.ok (scope, ttl), true, true⟩
      else ⟨.error .storeFailed, true, true⟩
    else ⟨.error .downloadNotFound, true, false⟩
  else
    if storeOk then ⟨.ok (scope, ttl), false, true⟩
    else ⟨.error .storeFailed, false, true⟩

/-- The scope grammar as the spec states it: exactly `queue`, exactly
`system`, or `download:` followed by a non-empty id. -/
def SpecScopeOK (scope : String) : Prop :=
  scope = "queue" ∨ scope = "system" ∨
    ∃ id : String, id ≠ "" ∧ scope = "download:" ++ id

/-- The code's grammar test coincides with the spec's grammar. -/
theorem grammar_iff (scope : String) :
    (scope = "queue" ∨ scope = "system" ∨
      (pyStartsWith scope "download:" = true ∧ 0 < (scopeSuffix scope).length)) ↔
    SpecScopeOK scope := by
  unfold SpecScopeOK
  refine or_congr Iff.rfl (or_congr Iff.rfl ?_)
  constructor
  · rintro ⟨hsw, hlen⟩
    obtain ⟨id, rfl⟩ := (pyStartsWith_iff _ _).mp hsw
    refine ⟨id, ?_, rfl⟩
    rw [scopeSuffix_append] at hlen
    intro h
    rw [h] at hlen
    exact absurd hlen (by norm_num [String.length])
  · rintro ⟨id, hne, rfl⟩
    refine ⟨pyStartsWith_download_append id, ?_⟩
    rw [scopeSuffix_append]
    rcases Nat.eq_zero_or_pos id.length with hz | hp
    · exact absurd (by rw [string_eq_iff_data]
                       exact List.length_eq_zero.mp hz) hne
    · exact hp

theorem string_append_left_cancel {a b c : String} (h : a ++ b = a ++ c) :
    b = c := by
  rw [string_eq_iff_data, string_data_append, string_data_append] at h
  rw [string_eq_iff_data]
  exact List.append_cancel_left h

/-- Whether an issuance outcome is a success. -/
def issueOk (o : IssueOutcome) : Bool :=
  match o.result with
  | .ok _ => true
  | .error _ => false

/-- C8: token issuance (with a working store) succeeds iff the requested
scope is exactly `queue`, exactly `system`, or `download:<non-empty id>`,
the TTL lies within [60, 3600] seconds, and, for download scopes only, a job
with that id currently exists; out-of-range TTL and bad scope grammar are
rejected before any store interaction (and without a job lookup); issuance
for a nonexistent job id is rejected (also before the store); and issuance
for `queue`/`system` never consults job existence. -/
theorem create_sse_token_spec (scope : String) (ttl : Int)
    (jobExists : String → Bool) :
    (issueOk (create_sse_token scope ttl jobExists true) = true ↔
      (60 ≤ ttl ∧ ttl ≤ 3600 ∧
        (scope = "queue" ∨ scope = "system" ∨
          ∃ id : String, id ≠ "" ∧ scope = "download:" ++ id ∧
            jobExists id = true))) ∧
    ((ttl < 60 ∨ 3600 < ttl) →
      create_sse_token scope ttl jobExists true =
        ⟨.error .ttlOutOfRange, false, false⟩) ∧
    (¬SpecScopeOK scope → 60 ≤ ttl → ttl ≤ 3600 →
      create_sse_token scope ttl jobExists true =
        ⟨.error .invalidScopeFormat, false, false⟩) ∧
    (∀ id : String, scope = "download:" ++ id → id ≠ "" →
      jobExists id = false → 60 ≤ ttl → ttl ≤ 3600 →
      create_sse_token scope ttl jobExists true =
        ⟨.error .downloadNotFound, true, false⟩) ∧
    ((scope = "queue" ∨ scope = "system") →
      (create_sse_token scope ttl jobExists true).jobChecked = false) := by
  by_cases hT : ttl < 60 ∨ 3600 < ttl
  · have hc : create_sse_token scope ttl jobExists true =
        ⟨.error .ttlOutOfRange, false, false⟩ := by
      rw [create_sse_token, if_pos hT]
    refine ⟨?_, fun _ => hc, ?_, ?_, ?_⟩
    · rw [hc]
      simp only [issueOk, Bool.false_eq_true, false_iff]
      rintro ⟨h60, h36, -⟩
      omega
    · intro _ h60 h36; omega
    · intro id _ _ _ h60 h36; omega
    · intro _; rw [hc]
  · have hT2 : 60 ≤ ttl ∧ ttl ≤ 3600 := by omega
    by_cases hG : (scope = "queue" ∨ scope = "system" ∨
        (pyStartsWith scope "download:" = true ∧ 0 < (scopeSuffix scope).length))
    · by_cases hD : pyStartsWith scope "download:" = true
      · -- download scope
        obtain ⟨id, rfl⟩ := (pyStartsWith_iff _ _).mp hD
        have hqueue : ¬("download:" ++ id = "queue") := by
          intro h
          rw [string_eq_iff_data, string_data_append] at h
          have := congrArg List.length h
          simp at this
        have hsystem : ¬("download:" ++ id = "system") := by
          intro h
          rw [string_eq_iff_data, string_data_append] at h
          have := congrArg List.length h
          simp at this
        have hne : id ≠ "" := by
          rcases hG with h | h | ⟨-, hlen⟩
          · exact absurd h hqueue
          · exact absurd h hsystem
          · rw [scopeSuffix_append] at hlen
            intro h
            rw [h] at hlen
            exact absurd hlen (by norm_num [String.length])
        by_cases hJ : jobExists (scopeSuffix ("download:" ++ id)) = true
        · have hc : create_sse_token ("download:" ++ id) ttl jobExists true =
              ⟨.ok ("download:" ++ id, ttl), true, true⟩ := by
            rw [create_sse_token, if_neg hT, if_neg (not_not_intro hG),
              if_pos hD, if_pos hJ, if_pos rfl]
          refine ⟨?_, fun h => absurd h hT, ?_, ?_, ?_⟩
          · rw [hc]
            simp only [issueOk, true_iff]
            refine ⟨hT2.1, hT2.2, Or.inr (Or.inr ⟨id, hne, rfl, ?_⟩)⟩
            rw [scopeSuffix_append] at hJ
            exact hJ
          · intro hns _ _
            exact absurd ((grammar_iff _).mp hG) hns
          · intro id2 heq hne2 hje _ _
            have hid : id = id2 := string_append_left_cancel heq
            subst hid
            rw [scopeSuffix_append] at hJ
            rw [hJ] at hje
            exact absurd hje (by simp)
          · rintro (h | h)
            · exact absurd h hqueue
            · exact absurd h hsystem
        · have hJ2 : jobExists (scopeSuffix ("download:" ++ id)) = false := by
            simpa using hJ
          have hc : create_sse_token ("download:" ++ id) ttl jobExists true =
              ⟨.error .downloadNotFound, true, false⟩ := by
            rw [create_sse_token, if_neg hT, if_neg (not_not_intro hG),
              if_pos hD, if_neg hJ]
          refine ⟨?_, fun h => absurd h hT, ?_, ?_, ?_⟩
          · rw [hc]
            simp only [issueOk, Bool.false_eq_true, false_iff]
            rintro ⟨-, -, h | h | ⟨id2, hne2, heq, hje⟩⟩
            · exact hqueue h
            · exact hsystem h
            · have hid : id = id2 := string_append_left_cancel heq
              subst hid
              rw [scopeSuffix_append] at hJ2
              rw [hje] at hJ2
              exact absurd hJ2 (by simp)
          · intro hns _ _
            exact absurd ((grammar_iff _).mp hG) hns
          · intro id2 heq _ _ _ _
            have hid : id = id2 := string_append_left_cancel heq
            subst hid
            exact hc
          · rintro (h | h)
            · exact absurd h hqueue
            · exact absurd h hsystem
      · -- queue or system scope
        have hqs : scope = "queue" ∨ scope = "system" := by
          rcases hG with h | h | ⟨hsw, -⟩
          · exact Or.inl h
          · exact Or.inr h
          · exact absurd hsw hD
        have hc : create_sse_token scope ttl jobExists true =
            ⟨.ok (scope, ttl), false, true⟩ := by
          rw [create_sse_token, if_neg hT, if_neg (not_not_intro hG),
            if_neg hD, if_pos rfl]
        refine ⟨?_, fun h => absurd h hT, ?_, ?_, ?_⟩
        · rw [hc]
          simp only [issueOk, true_iff]
          refine ⟨hT2.1, hT2.2, ?_⟩
          rcases hqs with h | h
          · exact Or.inl h
          · exact Or.inr (Or.inl h)
        · intro hns _ _
          exact absurd ((grammar_iff _).mp hG) hns
        · intro id2 heq _ _ _ _
          exact absurd (heq ▸ pyStartsWith_download_append id2) hD
        · intro _
          rw [hc]
    · have hc : create_sse_token scope ttl jobExists true =
          ⟨.error .invalidScopeFormat, false, false⟩ := by
        rw [create_sse_token, if_neg hT, if_pos hG]
      refine ⟨?_, fun h => absurd h hT, fun _ _ _ => hc, ?_, ?_⟩
      · rw [hc]
        simp only [issueOk, Bool.false_eq_true, false_iff]
        rintro ⟨-, -, h | h | ⟨id2, hne2, heq, -⟩⟩
        · exact hG ((grammar_iff scope).mpr (Or.inl h))
        · exact hG ((grammar_iff scope).mpr (Or.inr (Or.inl h)))
        · exact hG ((grammar_iff scope).mpr (Or.inr (Or.inr ⟨id2, hne2, heq⟩)))
      · intro id2 heq hne2 _ _ _
        exact absurd ((grammar_iff scope).mpr (Or.inr (Or.inr ⟨id2, hne2, heq⟩))) hG
      · intro hqs
        rcases hqs with h | h
        · exact absurd ((grammar_iff scope).mpr (Or.inl h)) hG
        · exact absurd ((grammar_iff scope).mpr (Or.inr (Or.inl h))) hG

/-! ## Event stream service

Embeds `EventService.event_stream` and `EventService._matches_filters` from
`app/services/event_service.py` (lines 25-139).  A connection's inbound side
is the list of pub/sub messages it receives (with their arrival wall-clock
times) and the way the subscription ends; the outbound side is the list of
yielded SSE events together with the ordered list of increments/decrements
applied to the `active_connections` counter. -/

/-- An SSE event yielded to the client. -/
inductive OutEvent
  | errorEvent (code : String)
  | connected
  | heartbeat
  | message (etype : String) (data : List (String × String))
  deriving DecidableEq

/-- One pub/sub message delivered to the connection's subscription, with the
wall-clock time at which the `async for` loop body runs for it. -/
structure SubMessage where
  time : ℚ
  etype : String
  data : List (String × String)
  deriving DecidableEq

/-- How the subscription loop ends: exhausted/disconnected normally,
cancelled, or by an exception from the underlying subscription. -/
inductive StreamEnd
  | normal
  | cancelled
  | errored
  deriving DecidableEq

/-- Embeds `EventService._matches_filters` (event_service.py 123-139): every
filter key must be present in the event's data with exactly the filter's
value. -/
def matches_filters (data filters : List (String × String)) : Bool :=
  filters.all fun kv =>
    match data.lookup kv.1 with
    | some v => v == kv.2
    | none => false

/-- The per-message loop body of `EventService.event_stream` (lines 81-98):
opportunistic heartbeat when the interval elapsed, then the filter check,
then forwarding. `lastHb` is the time of the last heartbeat. -/
def processMessages (hbInterval : ℚ) (filters : Option (List (String × String))) :
    ℚ → List SubMessage → List OutEvent
  | _, [] => []
  | lastHb, m :: ms =>
    let hb : List OutEvent :=
      if m.time - lastHb ≥ hbInterval then [OutEvent.heartbeat] else []
    let lastHb2 : ℚ := if m.time - lastHb ≥ hbInterval then m.time else lastHb
    let fwd : List OutEvent :=
      match filters with
      | some f =>
        if matches_filters m.data f then [OutEvent.message m.etype m.data] else []
      | none => [OutEvent.message m.etype m.data]
    hb ++ fwd ++ processMessages hbInterval filters lastHb2 ms

/-- What the generator emits after the message loop stops
(event_stream's `except` clauses, lines 100-114): one generic error event
when the subscription raised, nothing on normal end or cancellation. -/
def endTail : StreamEnd → List OutEvent
  | .errored => [OutEvent.errorEvent "INTERNAL_ERROR"]
  | .normal => []
  | .cancelled => []

/-- Embeds `EventService.event_stream` (event_service.py 25-121).  `active` is the
current `active_connections` counter and `maxConn` the ceiling; `startTime`
is the loop time at connection start (initial `last_heartbeat`).  Returns
the yielded events and the ordered increments/decrements applied to the
counter (`[]` for a rejected connection; `[+1, -1]` — increment on
admission, decrement in `finally` — for an admitted one, on every
termination path). -/
def event_stream (active maxConn : Nat)
    (filters : Option (List (String × String))) (hbInterval startTime : ℚ)
    (incoming : List SubMessage) (ending : StreamEnd) :
    List OutEvent × List Int :=
  if active ≥ maxConn then
    ([OutEvent.errorEvent "MAX_CONNECTIONS"], [])
  else
    (OutEvent.connected ::
      (processMessages hbInterval filters startTime incoming ++ endTail ending),
     [1, -1])

/-- C6: a stream connection request arriving while the active-connection
count is at or above the ceiling yields exactly one error event carrying the
max-connections code — distinct from the generic internal-error code — and
terminates; the counter receives no increment and no decrement for the
rejected attempt. -/
theorem event_stream_rejects_at_ceiling (active maxConn : Nat)
    (filters : Option (List (String × String))) (hbInterval startTime : ℚ)
    (incoming : List SubMessage) (ending : StreamEnd)
    (h : active ≥ maxConn) :
    event_stream active maxConn filters hbInterval startTime incoming ending =
      ([OutEvent.errorEvent "MAX_CONNECTIONS"], []) ∧
    OutEvent.errorEvent "MAX_CONNECTIONS" ≠ OutEvent.errorEvent "INTERNAL_ERROR" := by
  refine ⟨?_, by decide⟩
  rw [event_stream, if_pos h]

theorem event_stream_rejects_at_ceiling_witness :
    (3 ≥ 3) ∧
    (event_stream 3 3 none 15 0 [] StreamEnd.normal =
      ([OutEvent.errorEvent "MAX_CONNECTIONS"], []) ∧
    OutEvent.errorEvent "MAX_CONNECTIONS" ≠ OutEvent.errorEvent "INTERNAL_ERROR") :=
  ⟨by decide, event_stream_rejects_at_ceiling 3 3 none 15 0 [] StreamEnd.normal
    (by decide)⟩

/-! ## Stream-subscription endpoint

Embeds `GET /api/v1/events/stream` (`event_stream` in
`app/api/v1/endpoints/events.py`, lines 32-130): parsing of the
`channels`/`download_id` query parameters, filter construction, and the
token-scope override, producing the channel list and filter dict handed to
`EventService.event_stream`. -/

/-- Python `str.split(c)` on a single-character separator (an empty string
yields `[""]`). -/
def splitChar (c : Char) : List Char → List (List Char)
  | [] => [[]]
  | a :: as =>
    match splitChar c as with
    | [] => [[]]
    | r :: rs => if a == c then [] :: r :: rs else (a :: r) :: rs

/-- Python `s.split(",")`. -/
def pySplit (s : String) (c : Char) : List String :=
  (splitChar c s.data).map fun l => ⟨l⟩

/-- ASCII whitespace for Python `str.strip()`. -/
def isPySpace (c : Char) : Bool :=
  c == ' ' || c == '\t' || c == '\n' || c == '\r' || c == '\x0b' || c == '\x0c'

/-- Python `s.strip()`. -/
def pyStrip (s : String) : String :=
  ⟨((s.data.dropWhile isPySpace).reverse.dropWhile isPySpace).reverse⟩

/-- Python dict assignment `d[k] = v` on an association list. -/
def dictSet (d : List (String × String)) (k v : String) :
    List (String × String) :=
  match d with
  | [] => [(k, v)]
  | (k2, v2) :: rest =>
    if k2 == k then (k, v) :: rest else (k2, v2) :: dictSet rest k v

/-- The default channel list when the client supplies none (events.py 90). -/
def defaultChannels : List String :=
  ["download:updates", "queue:updates", "system:notifications"]

/-- The `GET /events/stream` handler after token validation: parse the
`channels` parameter (Python truthiness: absent or empty means the default
list), build the filter dict from the `download_id` parameter, then override
both from the validated token's scope; the filter dict is passed as `None`
when empty (`filters if filters else None`, events.py 128). -/
def stream_endpoint (channels download_id : Option String)
    (token_scope : String) :
    List String × Option (List (String × String)) :=
  let channel_list : List String :=
    match channels with
    | some s => if s == "" then defaultChannels else (pySplit s ',').map pyStrip
    | none => defaultChannels
  let filters0 : List (String × String) :=
    match download_id with
    | some d => if d == "" then [] else [("download_id", d)]
    | none => []
  let cf : List String × List (String × String) :=
    if pyStartsWith token_scope "download:" = true then
      (["download:updates"], dictSet filters0 "download_id" (scopeSuffix token_scope))
    else if token_scope == "queue" then
      (["queue:updates"], filters0)
    else if token_scope == "system" then
      (["system:notifications"], filters0)
    else
      (channel_list, filters0)
  (cf.1, if cf.2 == [] then none else some cf.2)

/-- C10: when the validated token's scope is `download:<id>`, the connection
is admitted with channel set exactly `["download:updates"]` and a filter
mapping `download_id` to the id taken from the token scope; the
client-supplied `channels` and `download_id` query parameters have no
influence — two requests with the same token scope but different parameters
get the same channel set and the same filter. -/
theorem stream_endpoint_download_scope (ch1 did1 ch2 did2 : Option String)
    (id : String) :
    stream_endpoint ch1 did1 ("download:" ++ id) =
      (["download:updates"], some [("download_id", id)]) ∧
    stream_endpoint ch1 did1 ("download:" ++ id) =
      stream_endpoint ch2 did2 ("download:" ++ id) := by
  have key : ∀ ch did : Option String,
      stream_endpoint ch did ("download:" ++ id) =
        (["download:updates"], some [("download_id", id)]) := by
    intro ch did
    have hsw := pyStartsWith_download_append id
    cases did with
    | none =>
      simp [stream_endpoint, hsw, scopeSuffix_append, dictSet]
    | some d =>
      by_cases hd : d = ""
      · simp [stream_endpoint, hsw, scopeSuffix_append, dictSet, hd]
      · simp [stream_endpoint, hsw, scopeSuffix_append, dictSet, hd]
  exact ⟨key ch1 did1, (key ch1 did1).trans (key ch2 did2).symm⟩

end Hermes
